import Mathlib

/-!
Verification of the authentication front door of the tsdb-gw metrics gateway.

The development shallowly embeds:
  * `api/middleware.go` — credential extraction from the supported header
    schemes, the error-to-HTTP-status mapping, and the admin impersonation
    block (`Api.Auth`, `Api.DDAuth`);
  * the `gcom` auth plugin (`Auth`, `CheckInstance` with their TTL caches) —
    whose implementation file is absent from the sources, so it is modelled
    from the specification and checked against the expectations of
    `auth/gcom/auth_test.go`;
  * the `schema` archive encoding (`NewArchive`, `Archive.Method`,
    `Archive.Span`, `IsSpanValid`).

Machine integers are modelled as `Nat`/`Int` with explicit `% 256` where the
Go code performs `uint8` arithmetic.
-/

namespace api

/-- Splits a character list at the first occurrence of `sep`: the characters
before it and the characters after it, or `none` when `sep` does not occur. -/
def splitFirst (sep : Char) : List Char → Option (List Char × List Char)
  | [] => none
  | c :: cs =>
    if c = sep then some ([], cs)
    else
      match splitFirst sep cs with
      | none => none
      | some (before, after) => some (c :: before, after)

/-- Go `strings.SplitN(s, sep, 2)` for the one-character separators the
middleware uses (`" "` and `":"`): the parts before and after the first
occurrence of `sep`; when `sep` does not occur, the one-element list `[s]`. -/
def splitN2 (s : String) (sep : Char) : List String :=
  match splitFirst sep s.data with
  | none => [s]
  | some (before, after) => [String.mk before, String.mk after]

/-- The error values the middleware compares the auth plugin's error against
(`auth.ErrInvalidCredentials`, `auth.ErrInvalidOrgId`,
`auth.ErrInvalidInstanceID`), plus the remaining errors the plugin can
surface (`ErrAuthorityUnavailable`-class failures and anything else). -/
inductive AuthError where
  | invalidCredentials
  | invalidOrgId
  | invalidInstanceID
  | authorityUnavailable
  | other (msg : String)
deriving DecidableEq

/-- Embeds `Api.Auth` middleware.go lines 88–96 and `Api.DDAuth` lines
137–145: the three credential/policy errors are answered with HTTP 401, every
other error with HTTP 500. -/
def statusForAuthError (e : AuthError) : Nat :=
  if e = .invalidCredentials ∨ e = .invalidOrgId ∨ e = .invalidInstanceID then 401
  else 500

/-- Embeds the credential extraction of `Api.Auth` (middleware.go lines
71–80). `basic` is the result of `ctx.Req.BasicAuth()` (`none` when no valid
Basic header is present); `authHeader` is the raw `Authorization` header used
for the Bearer fallback. -/
def authExtract (basic : Option (String × String)) (authHeader : String) :
    String × String :=
  match basic with
  | some (username, key) => (username, key)
  | none =>
    let parts := splitN2 authHeader ' '
    if parts.length = 2 ∧ parts.getD 0 "" = "Bearer" then
      ("api_key", parts.getD 1 "")
    else
      ("", "")

/-- Embeds the credential extraction of `Api.DDAuth` (middleware.go lines
118–129) from the `Dd-Api-Key` header. -/
def ddExtract (header : String) : String × String :=
  let parts := splitN2 header ':'
  if parts.length = 1 then
    ("api_key", parts.getD 0 "")
  else if parts.length = 2 ∧ parts.getD 1 "" = "" then
    ("api_key", parts.getD 1 "")
  else
    (parts.getD 0 "", parts.getD 1 "")

/-- What a middleware does after credential extraction: either it terminates
the request with an HTTP status without consulting the auth plugin, or it
calls `authPlugin.Auth(username, key)`. -/
inductive HandlerStep where
  | reject (status : Nat)
  | callAuth (username key : String)
deriving DecidableEq

/-- `Api.Auth` up to (and including) the empty-key guard of middleware.go
lines 82–88: extract credentials, reject 401 on an empty key, otherwise call
the auth plugin. -/
def authStep (basic : Option (String × String)) (authHeader : String) :
    HandlerStep :=
  let cred := authExtract basic authHeader
  if cred.2 = "" then .reject 401 else .callAuth cred.1 cred.2

/-- `Api.DDAuth` up to (and including) the empty-key guard of middleware.go
lines 131–137. -/
def ddAuthStep (header : String) : HandlerStep :=
  let cred := ddExtract header
  if cred.2 = "" then .reject 401 else .callAuth cred.1 cred.2

/-- One base-10 digit of Go `strconv.ParseInt`. -/
def digitVal (c : Char) : Option Nat :=
  if '0' ≤ c ∧ c ≤ '9' then some (c.toNat - '0'.toNat) else none

/-- Accumulates base-10 digits; fails on any non-digit character. -/
def parseDigitsAux : List Char → Nat → Option Nat
  | [], acc => some acc
  | c :: cs, acc =>
    match digitVal c with
    | some d => parseDigitsAux cs (acc * 10 + d)
    | none => none

/-- Go `strconv.ParseInt(s, 10, 64)` returning `some` exactly when Go returns
a nil error: optional sign, at least one digit, all characters digits, value
within the signed 64-bit range (on overflow Go returns `ErrRange`, a non-nil
error, so the middleware ignores the value). -/
def goParseInt64 (s : String) : Option Int :=
  match s.data with
  | [] => none
  | c :: cs =>
    let signedDigits : Bool × List Char :=
      if c = '-' then (true, cs)
      else if c = '+' then (false, cs)
      else (false, c :: cs)
    match signedDigits with
    | (_, []) => none
    | (neg, ds) =>
      match parseDigitsAux ds 0 with
      | none => none
      | some n =>
        if neg then
          if (n : Int) ≤ 2 ^ 63 then some (-(n : Int)) else none
        else
          if (n : Int) ≤ 2 ^ 63 - 1 then some (n : Int) else none

/-- The fields of `auth.User` the middleware reads and writes in the
impersonation block. -/
structure User where
  ID : Int
  IsAdmin : Bool
deriving DecidableEq

/-- Embeds the impersonation block shared by `Api.Auth` (middleware.go lines
99–108) and `Api.DDAuth` (lines 148–157): when the resolved user is an admin
and the `X-Tsdb-Org` header is non-empty, parses to an integer with a nil
error, and that integer is non-zero, the user's effective org ID is
overwritten with it. -/
def impersonateOrg (user : User) (header : String) : User :=
  if user.IsAdmin then
    if header ≠ "" then
      match goParseInt64 header with
      | some orgId => if orgId ≠ 0 then { user with ID := orgId } else user
      | none => user
    else user
  else user

end api

namespace schema

/-- `Method` of the schema package: the six aggregation methods, numbered
1–6 (`Avg Method = iota + 1`). -/
inductive Method where
  | Avg | Sum | Lst | Max | Min | Cnt
deriving DecidableEq, Fintype

/-- The numeric value of a `Method` constant. -/
def Method.code : Method → Nat
  | .Avg => 1
  | .Sum => 2
  | .Lst => 3
  | .Max => 4
  | .Min => 5
  | .Cnt => 6

/-- The supported aggregation spans, in seconds; the index position of a span
in this list is its code (the `spans` slice of the package `init`). -/
def spans : List Nat :=
  [2, 5, 10, 15, 30, 60, 90, 120, 150, 300, 600, 900, 1200, 1800, 45 * 60,
   3600, 3600 + 30 * 60, 2 * 3600, 3 * 3600, 4 * 3600, 5 * 3600, 6 * 3600]

/-- Index of `s` in a list of naturals (`none` when absent). -/
def indexIn : List Nat → Nat → Option Nat
  | [], _ => none
  | x :: xs, s => if x = s then some 0 else (indexIn xs s).map (· + 1)

/-- The `spanHumanToCode` map built by `init`. -/
def spanHumanToCode (span : Nat) : Option Nat :=
  indexIn spans span

/-- The `spanCodeToHuman` map built by `init`. -/
def spanCodeToHuman (code : Nat) : Option Nat :=
  spans.get? code

/-- `IsSpanValid`: the span occurs in the supported-span list. -/
def IsSpanValid (span : Nat) : Bool :=
  (spanHumanToCode span).isSome

/-- `NewArchive(method, span)`: `uint8(method) | code<<4` in `uint8`
arithmetic, where `code` is the map lookup (a missing key yields Go's zero
value, 0). The `<<4` wraps modulo 256 because `code` is a `uint8`. -/
def NewArchive (m : Method) (span : Nat) : Nat :=
  let code := (spanHumanToCode span).getD 0
  (m.code % 256) ||| (code <<< 4 % 256)

/-- `Archive.Method()`: the numeric method value `a & 0x0F`. -/
def archiveMethodCode (a : Nat) : Nat := a &&& 0x0F

/-- `Archive.Span()`: `spanCodeToHuman[uint8(a>>4)]`. -/
def archiveSpan (a : Nat) : Option Nat :=
  spanCodeToHuman (a >>> 4)

end schema

namespace gcom

/-- The roles carried by a resolved identity (`ROLE_ADMIN`, `ROLE_EDITOR`,
`ROLE_VIEWER`). -/
inductive Role where
  | admin | editor | viewer
deriving DecidableEq

/-- `SignedInUser` of the gcom package, with the fields exercised by
`auth_test.go` (`Id, OrgName, OrgSlug, OrgId, Name, Role, CreatedAt, key`)
plus `IsAdmin`. Timestamps are abstract `Nat` instants. -/
structure SignedInUser where
  Id : Int
  OrgName : String
  OrgSlug : String
  OrgId : Int
  Name : String
  Role : gcom.Role
  CreatedAt : Nat
  IsAdmin : Bool
  key : String
deriving DecidableEq

/-- One entry of the credential TTL cache: the stored identity and its
absolute expiry instant. -/
structure CacheEntry where
  user : SignedInUser
  expiresAt : Nat
deriving DecidableEq

/-- The credential TTL cache, keyed by secret. -/
abbrev Cache := List (String × CacheEntry)

/-- `cache.Get(key)`: the stored entry when present (freshness is judged
against `now` at the use site: fresh iff `now < expiresAt`). -/
def Cache.get : Cache → String → Option CacheEntry
  | [], _ => none
  | (k, e) :: rest, key => if k = key then some e else Cache.get rest key

/-- `cache.Set(key, user, ttl)` at instant `now`: stores the identity with
`expiresAt = now + ttl`, overwriting any prior entry for the key. -/
def Cache.set (c : Cache) (key : String) (u : SignedInUser) (ttl now : Nat) :
    Cache :=
  (key, ⟨u, now + ttl⟩) :: c.filter (fun p => p.1 ≠ key)

/-- Outcome of the authority's credential check: HTTP 200 with a parsed
identity, or a failure (transport error or any non-200 status — the spec
folds both into one `ErrAuthorityUnavailable`-class outcome). -/
inductive AuthorityResp where
  | ok (user : SignedInUser)
  | failure
deriving DecidableEq

/-- Result of one `Auth` call: the returned identity or error, the cache
state after the call, and how many authority round-trips were made. -/
structure AuthOutcome where
  result : Except api.AuthError SignedInUser
  cache : Cache
  authorityCalls : Nat

/-- Modelled from the spec: the built-in admin identity returned by the
static admin shortcut of `Auth` (the gcom implementation file is absent from
the sources) — `isAdmin=true`, sentinel org ID 1 named "Admin", the
presented secret retained as `key` (auth_test.go lines 28–36). -/
def adminUser (secret : String) : SignedInUser :=
  { Id := 1, OrgName := "Admin", OrgSlug := "admin", OrgId := 1,
    Name := "admin", Role := .admin, CreatedAt := 0, IsAdmin := true,
    key := secret }

/-- Modelled from the spec: step 3 of `Authenticate` (§4.3) — the authority
consultation entered on a cache miss or stale hit. `stale` carries the stale
identity when the step was entered via staleness. On success the identity is
re-keyed to the presented secret, checked against the eligible-org set
(`validOrgIds`; an empty set allows all orgs), and cached with the TTL. On
failure a stale identity is re-stamped (`Set(secret, staleIdentity, TTL)`)
and served; with no fallback the failure propagates. -/
def authResolve (validOrgIds : List Int) (ttl : Nat) (cache : Cache)
    (now : Nat) (authority : AuthorityResp) (secret : String)
    (stale : Option SignedInUser) : AuthOutcome :=
  match authority with
  | .ok u =>
    if validOrgIds ≠ [] ∧ u.OrgId ∉ validOrgIds then
      ⟨.error .invalidOrgId, cache, 1⟩
    else
      ⟨.ok { u with key := secret },
       Cache.set cache secret { u with key := secret } ttl now, 1⟩
  | .failure =>
    match stale with
    | some su => ⟨.ok su, Cache.set cache secret su ttl now, 1⟩
    | none => ⟨.error .authorityUnavailable, cache, 1⟩

/-- Modelled from the spec: `Auth(username, secret)` of the gcom package
(§4.3; only its test file is in the sources). In order: the static admin
shortcut (no cache, no authority call); a fresh cache hit returned without an
authority call; otherwise the authority consultation `authResolve`. The one
authority round-trip such a call would make is supplied as `authority`. -/
def Auth (adminKey : String) (validOrgIds : List Int) (ttl : Nat)
    (cache : Cache) (now : Nat) (authority : AuthorityResp)
    (username secret : String) : AuthOutcome :=
  if secret = adminKey then
    ⟨.ok (adminUser secret), cache, 0⟩
  else
    match Cache.get cache secret with
    | some e =>
      if now < e.expiresAt then ⟨.ok e.user, cache, 0⟩
      else authResolve validOrgIds ttl cache now authority secret (some e.user)
    | none => authResolve validOrgIds ttl cache now authority secret none

/-- The instance-ownership TTL cache: only `true` facts are stored, so an
entry is its expiry instant, keyed by `"<orgSlug>-<instanceId>"`. -/
abbrev ICache := List (String × Nat)

/-- `instanceCache.Get(key)`. -/
def ICache.get : ICache → String → Option Nat
  | [], _ => none
  | (k, e) :: rest, key => if k = key then some e else ICache.get rest key

/-- `instanceCache.Set(key, true, ttl)` at instant `now`. -/
def ICache.set (c : ICache) (key : String) (ttl now : Nat) : ICache :=
  (key, now + ttl) :: c.filter (fun p => p.1 ≠ key)

/-- Outcome of the authority's instance lookup: HTTP 200 with the owning org
ID, HTTP 404 (`ErrNotFound`), or any other failure. -/
inductive InstanceResp where
  | ok (orgId : Int)
  | notFound
  | failure
deriving DecidableEq

/-- Result of one `CheckInstance` call: `none` for a nil error, and the
instance-cache state after the call. -/
structure InstOutcome where
  err : Option api.AuthError
  cache : ICache

/-- The instance-cache key `"<orgSlug>-<instanceId>"` (auth_test.go line 243
uses "awoodsTest-10"). -/
def instanceKey (user : SignedInUser) (instanceId : String) : String :=
  user.OrgSlug ++ "-" ++ instanceId

/-- Modelled from the spec: the authority consultation of `CheckInstance`
(§4.4), entered on a cache miss or stale hit. A reported owner equal to the
identity's org caches `true` with the TTL; a mismatch or `ErrNotFound` yields
`ErrInvalidInstanceID` and caches nothing; an authority failure re-stamps a
stale `true` entry, else propagates. -/
def checkResolve (ttl : Nat) (icache : ICache) (now : Nat)
    (authority : InstanceResp) (key : String) (orgId : Int) (stale : Bool) :
    InstOutcome :=
  match authority with
  | .ok owner =>
    if owner = orgId then ⟨none, ICache.set icache key ttl now⟩
    else ⟨some .invalidInstanceID, icache⟩
  | .notFound => ⟨some .invalidInstanceID, icache⟩
  | .failure =>
    if stale then ⟨none, ICache.set icache key ttl now⟩
    else ⟨some .authorityUnavailable, icache⟩

/-- Modelled from the spec: `SignedInUser.CheckInstance(instanceId)` of the
gcom package (§4.4; only its test file is in the sources): a fresh cached
`true` authorizes without an authority call; otherwise the authority is
consulted via `checkResolve`. -/
def CheckInstance (ttl : Nat) (icache : ICache) (now : Nat)
    (authority : InstanceResp) (user : SignedInUser) (instanceId : String) :
    InstOutcome :=
  let key := instanceKey user instanceId
  match ICache.get icache key with
  | some exp =>
    if now < exp then ⟨none, icache⟩
    else checkResolve ttl icache now authority key user.OrgId true
  | none => checkResolve ttl icache now authority key user.OrgId false

/-- A concrete identity mirroring `testUser` of auth_test.go, used by the
witnesses below. -/
def tUser : SignedInUser :=
  { Id := 3, OrgName := "awoods Test", OrgSlug := "awoodsTest", OrgId := 2,
    Name := "testKey", Role := .editor, CreatedAt := 0, IsAdmin := false,
    key := "foo" }

end gcom

/-! ## Helper lemmas -/

theorem schema.indexIn_isSome_mem (l : List Nat) (s : Nat)
    (h : (schema.indexIn l s).isSome = true) : s ∈ l := by
  induction l with
  | nil => simp [schema.indexIn] at h
  | cons x xs ih =>
    by_cases hx : x = s
    · exact hx ▸ List.mem_cons_self x xs
    · refine List.mem_cons_of_mem x (ih ?_)
      simp only [schema.indexIn, if_neg hx] at h
      cases hi : schema.indexIn xs s
      · rw [hi] at h
        simp at h
      · simp [hi]

theorem schema.isSpanValid_mem (s : Nat) (h : schema.IsSpanValid s = true) :
    s ∈ schema.spans :=
  schema.indexIn_isSome_mem schema.spans s h

theorem gcom.Cache.get_set (c : gcom.Cache) (key : String)
    (u : gcom.SignedInUser) (ttl now : Nat) :
    gcom.Cache.get (gcom.Cache.set c key u ttl now) key
      = some ⟨u, now + ttl⟩ := by
  simp [gcom.Cache.get, gcom.Cache.set]

/-- When the secret is not the admin key and the cache holds no fresh entry
for it, `Auth` defers to the authority consultation, carrying along the stale
identity when one is present. -/
theorem gcom.Auth_not_fresh (adminKey : String) (validOrgIds : List Int)
    (ttl : Nat) (cache : gcom.Cache) (now : Nat)
    (authority : gcom.AuthorityResp) (username secret : String)
    (hne : secret ≠ adminKey)
    (hnofresh : ∀ e, gcom.Cache.get cache secret = some e →
      ¬ now < e.expiresAt) :
    gcom.Auth adminKey validOrgIds ttl cache now authority username secret
      = gcom.authResolve validOrgIds ttl cache now authority secret
          ((gcom.Cache.get cache secret).map (·.user)) := by
  unfold gcom.Auth
  rw [if_neg hne]
  cases hget : gcom.Cache.get cache secret with
  | none => simp
  | some e => simp [hnofresh e hget]

/-- When the instance cache holds no fresh entry for the key, `CheckInstance`
defers to the authority consultation, with the staleness flag recording
whether a (necessarily stale) entry was present. -/
theorem gcom.CheckInstance_not_fresh (ttl : Nat) (icache : gcom.ICache)
    (now : Nat) (authority : gcom.InstanceResp) (user : gcom.SignedInUser)
    (instanceId : String)
    (hnofresh : ∀ exp,
      gcom.ICache.get icache (gcom.instanceKey user instanceId) = some exp →
      ¬ now < exp) :
    gcom.CheckInstance ttl icache now authority user instanceId
      = gcom.checkResolve ttl icache now authority
          (gcom.instanceKey user instanceId) user.OrgId
          (gcom.ICache.get icache (gcom.instanceKey user instanceId)).isSome := by
  simp only [gcom.CheckInstance]
  cases hget : gcom.ICache.get icache (gcom.instanceKey user instanceId) with
  | none => simp
  | some exp => simp [hnofresh exp hget]

/-! ## Claim theorems -/

/-- C9: the Credential Extractor maps each supported header scheme as
follows: Basic authentication decoded to ("u","p") yields ("u","p");
`Authorization: Bearer tok` yields ("api_key","tok"); `Dd-Api-Key: org:key`
yields ("org","key"); `Dd-Api-Key: bareKey` yields ("api_key","bareKey"). -/
theorem extractor_scheme_coverage :
    api.authExtract (some ("u", "p")) "" = ("u", "p") ∧
    api.authExtract none "Bearer tok" = ("api_key", "tok") ∧
    api.ddExtract "org:key" = ("org", "key") ∧
    api.ddExtract "bareKey" = ("api_key", "bareKey") := by
  decide

/-- C8: when the supported header schemes yield an empty or absent secret,
both `Api.Auth` and `Api.DDAuth` reject the request with 401 without
invoking the auth plugin (the handler step is `.reject 401`, never
`.callAuth`). -/
theorem empty_secret_rejected_before_plugin
    (basic : Option (String × String)) (authHeader ddHeader : String)
    (h1 : (api.authExtract basic authHeader).2 = "")
    (h2 : (api.ddExtract ddHeader).2 = "") :
    api.authStep basic authHeader = .reject 401 ∧
    api.ddAuthStep ddHeader = .reject 401 := by
  constructor
  · simp [api.authStep, h1]
  · simp [api.ddAuthStep, h2]

theorem empty_secret_rejected_before_plugin_witness :
    api.authStep none "" = .reject 401 ∧ api.ddAuthStep ":" = .reject 401 :=
  empty_secret_rejected_before_plugin none "" ":" (by decide) (by decide)

/-- C7: the middleware answers the auth plugin's credential/policy errors
(`ErrInvalidCredentials` — the spec's `ErrUnauthorized` —, `ErrInvalidOrgId`,
`ErrInvalidInstanceID`) with HTTP 401 and every other error, including
`ErrAuthorityUnavailable`, with HTTP 500. -/
theorem auth_error_status_mapping (e : api.AuthError) :
    (api.statusForAuthError .invalidCredentials = 401 ∧
     api.statusForAuthError .invalidOrgId = 401 ∧
     api.statusForAuthError .invalidInstanceID = 401 ∧
     api.statusForAuthError .authorityUnavailable = 500) ∧
    (e ≠ .invalidCredentials → e ≠ .invalidOrgId → e ≠ .invalidInstanceID →
      api.statusForAuthError e = 500) := by
  refine ⟨⟨by decide, by decide, by decide, by decide⟩, fun h1 h2 h3 => ?_⟩
  simp [api.statusForAuthError, h1, h2, h3]

theorem auth_error_status_mapping_witness :
    api.statusForAuthError (.other "boom") = 500 :=
  (auth_error_status_mapping (.other "boom")).2 (by decide) (by decide)
    (by decide)

/-- C2: after identity resolution, for a resolved admin identity and a
non-empty `X-Tsdb-Org` header that parses (with a nil error) to a non-zero
integer, the middleware overrides the user's effective org ID (`user.ID`)
with that integer. -/
theorem admin_impersonation_overrides_org (user : api.User) (header : String)
    (n : Int) (hAdmin : user.IsAdmin = true) (hne : header ≠ "")
    (hparse : api.goParseInt64 header = some n) (hnz : n ≠ 0) :
    (api.impersonateOrg user header).ID = n := by
  simp [api.impersonateOrg, hAdmin, hne, hparse, hnz]

theorem admin_impersonation_overrides_org_witness :
    (api.impersonateOrg ⟨5, true⟩ "42").ID = 42 :=
  admin_impersonation_overrides_org ⟨5, true⟩ "42" 42 rfl (by decide)
    (by decide) (by decide)

/-- C3: evaluation at the failing input — for a `Dd-Api-Key` header `"org:"`
(single ':' delimiter, empty second segment) the code assigns the empty
second segment as the secret, yielding `("api_key", "")` rather than the
first segment `"org"` the claim states, and the request is then rejected
with 401 by the empty-key guard. -/
theorem dd_empty_second_segment_yields_empty_secret :
    api.ddExtract "org:" = ("api_key", "") ∧
    api.ddAuthStep "org:" = .reject 401 := by
  decide

/-- C10 counterexample: span 5400 (= 3600+30*60) is a valid span whose code
is 16, and `code<<4` wraps modulo 256 in `uint8` arithmetic, so
`NewArchive(Avg, 5400).Span()` is 2, not 5400 — the round-trip fails as
universally stated. -/
theorem archive_span_roundtrip_fails_at_5400 :
    schema.IsSpanValid 5400 = true ∧
    schema.archiveSpan (schema.NewArchive .Avg 5400) = some 2 ∧
    ¬ schema.archiveSpan (schema.NewArchive .Avg 5400) = some 5400 := by
  decide

/-- C10 amended: for every `Method` and every valid span whose code is below
16 (the spans up to 3600, which fit the 4-bit span field of the `uint8`
archive), the encoding round-trips: `NewArchive(m, s)` recovers the numeric
method value and the span. -/
theorem archive_roundtrip_small_codes (m : schema.Method) (s : Nat)
    (hv : schema.IsSpanValid s = true)
    (hc : (schema.spanHumanToCode s).getD 0 < 16) :
    schema.archiveMethodCode (schema.NewArchive m s) = m.code ∧
    schema.archiveSpan (schema.NewArchive m s) = some s := by
  have hmem : s ∈ schema.spans := schema.isSpanValid_mem s hv
  fin_cases hmem <;> revert hc <;> revert m <;> decide

theorem archive_roundtrip_small_codes_witness :
    schema.archiveMethodCode (schema.NewArchive .Sum 600)
      = schema.Method.code .Sum ∧
    schema.archiveSpan (schema.NewArchive .Sum 600) = some 600 :=
  archive_roundtrip_small_codes .Sum 600 (by decide) (by decide)

/-- C4: admin shortcut — presenting the configured admin secret makes `Auth`
return the built-in Identity with isAdmin=true, org ID 1, org name "Admin",
for any cache contents and any authority behavior, leaving the cache
unchanged and issuing zero authority calls. -/
theorem auth_admin_shortcut (adminKey : String) (validOrgIds : List Int)
    (ttl : Nat) (cache : gcom.Cache) (now : Nat)
    (authority : gcom.AuthorityResp) (username : String) :
    gcom.Auth adminKey validOrgIds ttl cache now authority username adminKey
      = ⟨.ok (gcom.adminUser adminKey), cache, 0⟩ ∧
    (gcom.adminUser adminKey).IsAdmin = true ∧
    (gcom.adminUser adminKey).OrgId = 1 ∧
    (gcom.adminUser adminKey).OrgName = "Admin" := by
  refine ⟨?_, rfl, rfl, rfl⟩
  simp [gcom.Auth]

/-- C1: stale-serves-through-outage — with a cached-but-expired entry for a
(non-admin) secret and an authority failure (transport error or non-200),
`Auth` returns the previously cached Identity with no error, and the cache
entry for that secret is re-stamped to expire at `now + TTL`, hence fresh
again for a positive TTL. -/
theorem auth_stale_serves_through_outage (adminKey : String)
    (validOrgIds : List Int) (ttl : Nat) (cache : gcom.Cache) (now : Nat)
    (username secret : String) (e : gcom.CacheEntry)
    (hne : secret ≠ adminKey)
    (hget : gcom.Cache.get cache secret = some e)
    (hstale : ¬ now < e.expiresAt)
    (httl : 0 < ttl) :
    (gcom.Auth adminKey validOrgIds ttl cache now .failure username
        secret).result = .ok e.user ∧
    gcom.Cache.get (gcom.Auth adminKey validOrgIds ttl cache now .failure
        username secret).cache secret = some ⟨e.user, now + ttl⟩ ∧
    now < now + ttl := by
  have hnf : ∀ e', gcom.Cache.get cache secret = some e' →
      ¬ now < e'.expiresAt := by
    intro e' hg
    rw [hget] at hg
    injection hg with h
    subst h
    exact hstale
  have h := gcom.Auth_not_fresh adminKey validOrgIds ttl cache now .failure
    username secret hne hnf
  rw [hget] at h
  simp only [Option.map_some'] at h
  rw [h]
  exact ⟨rfl, gcom.Cache.get_set cache secret e.user ttl now,
    Nat.lt_add_of_pos_right httl⟩

theorem auth_stale_serves_through_outage_witness :
    (gcom.Auth "key" [] 10 [("baz", ⟨gcom.tUser, 5⟩)] 5 .failure "key"
        "baz").result = .ok gcom.tUser ∧
    gcom.Cache.get (gcom.Auth "key" [] 10 [("baz", ⟨gcom.tUser, 5⟩)] 5
        .failure "key" "baz").cache "baz" = some ⟨gcom.tUser, 15⟩ ∧
    (5 : Nat) < 5 + 10 :=
  auth_stale_serves_through_outage "key" [] 10 [("baz", ⟨gcom.tUser, 5⟩)] 5
    "key" "baz" ⟨gcom.tUser, 5⟩ (by decide) (by decide) (by decide)
    (by decide)

/-- C5: eligibility on a fresh fetch — for a non-admin secret with no fresh
cache entry and a non-empty eligible-org set, an authority-returned identity
whose orgId is outside the set yields `ErrInvalidOrgId` with the cache
unchanged (the identity is not cached), while with orgId in the set the same
call succeeds and returns the identity (re-keyed to the presented secret). -/
theorem auth_org_eligibility (adminKey : String) (validOrgIds : List Int)
    (ttl : Nat) (cache : gcom.Cache) (now : Nat) (username secret : String)
    (u : gcom.SignedInUser)
    (hne : secret ≠ adminKey)
    (hnofresh : ∀ e, gcom.Cache.get cache secret = some e →
      ¬ now < e.expiresAt)
    (hvne : validOrgIds ≠ []) :
    (u.OrgId ∉ validOrgIds →
      gcom.Auth adminKey validOrgIds ttl cache now (.ok u) username secret
        = ⟨.error .invalidOrgId, cache, 1⟩) ∧
    (u.OrgId ∈ validOrgIds →
      (gcom.Auth adminKey validOrgIds ttl cache now (.ok u) username
          secret).result = .ok { u with key := secret }) := by
  have h := gcom.Auth_not_fresh adminKey validOrgIds ttl cache now (.ok u)
    username secret hne hnofresh
  constructor
  · intro hnotin
    rw [h]
    simp [gcom.authResolve, hvne, hnotin]
  · intro hin
    rw [h]
    simp [gcom.authResolve, hin]

theorem auth_org_eligibility_witness :
    gcom.Auth "key" [1] 10 [] 0 (.ok gcom.tUser) "key" "foo"
      = ⟨.error .invalidOrgId, [], 1⟩ ∧
    (gcom.Auth "key" [1, 2] 10 [] 0 (.ok gcom.tUser) "key" "foo").result
      = .ok { gcom.tUser with key := "foo" } := by
  constructor
  · exact (auth_org_eligibility "key" [1] 10 [] 0 "key" "foo" gcom.tUser
      (by decide) (fun e h => by simp [gcom.Cache.get] at h)
      (by decide)).1 (by decide)
  · exact (auth_org_eligibility "key" [1, 2] 10 [] 0 "key" "foo" gcom.tUser
      (by decide) (fun e h => by simp [gcom.Cache.get] at h)
      (by decide)).2 (by decide)

/-- C6: `CheckInstance` returns `ErrInvalidInstanceID` both when the
authority reports an owning orgId different from the authenticated
identity's orgId and when the authority reports the instance not found
(HTTP 404); in neither case is anything cached (the instance cache is
unchanged). Hypothesis: the cache holds no fresh entry for the key, so the
authority is actually consulted. -/
theorem checkInstance_mismatch_and_notfound (ttl : Nat)
    (icache : gcom.ICache) (now : Nat) (user : gcom.SignedInUser)
    (instanceId : String) (owner : Int)
    (hnofresh : ∀ exp,
      gcom.ICache.get icache (gcom.instanceKey user instanceId) = some exp →
      ¬ now < exp)
    (hmismatch : owner ≠ user.OrgId) :
    gcom.CheckInstance ttl icache now (.ok owner) user instanceId
      = ⟨some .invalidInstanceID, icache⟩ ∧
    gcom.CheckInstance ttl icache now .notFound user instanceId
      = ⟨some .invalidInstanceID, icache⟩ := by
  constructor
  · rw [gcom.CheckInstance_not_fresh ttl icache now (.ok owner) user
      instanceId hnofresh]
    simp [gcom.checkResolve, hmismatch]
  · rw [gcom.CheckInstance_not_fresh ttl icache now .notFound user
      instanceId hnofresh]
    simp [gcom.checkResolve]

theorem checkInstance_mismatch_and_notfound_witness :
    gcom.CheckInstance 10 [] 0 (.ok 3) gcom.tUser "20"
      = ⟨some .invalidInstanceID, []⟩ ∧
    gcom.CheckInstance 10 [] 0 .notFound gcom.tUser "20"
      = ⟨some .invalidInstanceID, []⟩ :=
  checkInstance_mismatch_and_notfound 10 [] 0 gcom.tUser "20" 3
    (fun exp h => by simp [gcom.ICache.get] at h) (by decide)
